import Mathlib

/-!
Shallow embedding of the Network-Usage-Monitoring-API data-access layer
(`src/db/crud.py` over the tables of `src/db/model.py`), together with
theorems checking the specification's claims about it.

Modelling conventions:
* A database state is three lists of rows (`lines`, `quota_results`,
  `speed_test_results`), in storage order.
* Timestamps (`DateTime` columns) are integers counting seconds; a calendar
  date is a timestamp that is a multiple of `secondsPerDay`, and
  `datetime.now().date()` is modelled by truncating `now` to the enclosing
  day boundary (`dateOf`).
* SQL floats (the averages) are modelled as rationals.
* `Integer` columns consumed by the claims as plain numbers are `Int`;
  `renewal_cost`, whose nullability the code tests with `isnot(None)`,
  is `Option Int`.
* Python's optional integer arguments (`id: int = None`) are `Option Int`,
  and the `if id:` truthiness test of the source is `intTruthy`.
* Each data-access function takes the database state and returns its result
  paired with the database state after the call (explicit state passing);
  the functions issue only SELECT statements, so the returned state is the
  input state.
* `GROUP BY k, agg(...)` is `sqlGroupBy`: one output row per distinct key,
  keys in first-occurrence order, the aggregate taken over the rows with
  that key.
-/

namespace NetworkUsage

/-- Length of one day in the integer time scale of the embedding. -/
def secondsPerDay : Int := 86400

/-- Truncation of a timestamp to its calendar date (the Python
`datetime.now().date()` in `average_speeds_per_line` and
`average_ping_per_line`). -/
def dateOf (t : Int) : Int := t - t % secondsPerDay

/-- Row of the `lines` table (`class Line` in `src/db/model.py`). -/
structure Line where
  id : Int
  line_number : String
  name : String
deriving DecidableEq

/-- Row of the `quota_results` table (`class QuotaResults` in
`src/db/model.py`).  `renewal_cost` is nullable; the code filters on
`renewal_cost.isnot(None)`. -/
structure QuotaResults where
  id : Int
  process_id : String
  line_id : Int
  data_used : Int
  usage_percentage : Int
  data_remaining : Int
  balance : Int
  renewal_date : String
  remaining_days : Int
  renewal_cost : Option Int
  date_time : Int
deriving DecidableEq

/-- Row of the `speed_test_results` table (`class SpeedTestResult` in
`src/db/model.py`). -/
structure SpeedTestResult where
  id : Int
  process_id : String
  line_id : Int
  ping : Int
  upload_speed : Int
  download_speed : Int
  public_ip : String
  date_time : Int
deriving DecidableEq

/-- A database state: the contents of the three tables. -/
structure DB where
  lines : List Line
  quota_results : List QuotaResults
  speed_test_results : List SpeedTestResult
deriving DecidableEq

/-- Python truthiness of an optional integer argument: `None` and `0` are
falsy, every other integer is truthy.  This is the `if id:` / `if line_id:`
test in `read_lines`, `read_quota_results` and `read_speed_test_results`. -/
def intTruthy : Option Int → Bool
  | none => false
  | some v => decide (v ≠ 0)

/-- SQL `GROUP BY key` with aggregate `agg`: one row per distinct key of
`rows`, in order of first occurrence, each paired with the aggregate of the
rows carrying that key. -/
def sqlGroupBy {α κ β : Type} [DecidableEq κ] (key : α → κ) (agg : List α → β)
    (rows : List α) : List (κ × β) :=
  ((rows.map key).dedup).map (fun k => (k, agg (rows.filter (fun r => decide (key r = k)))))

/-- SQL `AVG` over the non-empty list of values of a group, as a rational. -/
def listAvg (l : List Int) : ℚ := (l.sum : ℚ) / (l.length : ℚ)

/-- Response row of `average_speeds_per_line`
(`AverageSpeedsPerLine` in `src/db/schema.py`). -/
structure AverageSpeedsPerLine where
  line_id : Int
  avg_upload_speed : ℚ
  avg_download_speed : ℚ
deriving DecidableEq

/-- Response row of `average_ping_per_line`
(`AveragePingPerLine` in `src/db/schema.py`). -/
structure AveragePingPerLine where
  line_id : Int
  avg_ping : ℚ
deriving DecidableEq

/-- `read_lines(session, id=None)` from `src/db/crud.py`: all rows of
`lines`, filtered to `Line.id == id` only when `id` is truthy. -/
def read_lines (db : DB) (id : Option Int) : List Line × DB :=
  let stmt :=
    if intTruthy id then db.lines.filter (fun l => decide (l.id = id.getD 0))
    else db.lines
  (stmt, db)

/-- Descending-timestamp order on quota rows: `a` comes no later than `b`
when `b`'s timestamp is at most `a`'s (`desc(QuotaResults.date_time)`). -/
def quotaDateGE (a b : QuotaResults) : Prop := b.date_time ≤ a.date_time

instance : DecidableRel quotaDateGE := fun a b =>
  inferInstanceAs (Decidable (b.date_time ≤ a.date_time))

instance : IsTotal QuotaResults quotaDateGE :=
  ⟨fun a b => le_total b.date_time a.date_time⟩

instance : IsTrans QuotaResults quotaDateGE :=
  ⟨fun _ _ _ hab hbc => le_trans hbc hab⟩

/-- `read_quota_results(session, line_id=None)` from `src/db/crud.py`:
rows of `quota_results`, filtered to `QuotaResults.line_id == line_id` only
when `line_id` is truthy, ordered by `date_time` descending. -/
def read_quota_results (db : DB) (line_id : Option Int) : List QuotaResults × DB :=
  let stmt :=
    if intTruthy line_id then
      db.quota_results.filter (fun r => decide (r.line_id = line_id.getD 0))
    else db.quota_results
  (List.insertionSort quotaDateGE stmt, db)

/-- `read_speed_test_results(session, line_id=None)` from `src/db/crud.py`:
rows of `speed_test_results`, filtered to `line_id` only when truthy,
in storage order. -/
def read_speed_test_results (db : DB) (line_id : Option Int) : List SpeedTestResult × DB :=
  let stmt :=
    if intTruthy line_id then
      db.speed_test_results.filter (fun r => decide (r.line_id = line_id.getD 0))
    else db.speed_test_results
  (stmt, db)

/-- The aggregation of `get_total_dataused_per_line(session)` from
`src/db/crud.py`: `SELECT line_id, SUM(data_used) GROUP BY line_id` over
`quota_results`.  The Python function renders this as a bar chart and
returns `None`; the modelled value is the `results` rows it computes. -/
def get_total_dataused_per_line (db : DB) : List (Int × Int) × DB :=
  (sqlGroupBy (fun r => r.line_id) (fun g => (g.map (fun r => r.data_used)).sum)
    db.quota_results, db)

/-- The aggregation of `get_count_per_renewal_cost(session)` from
`src/db/crud.py`: rows of `quota_results` with `renewal_cost IS NOT NULL`,
grouped by `renewal_cost`, with `COUNT(*)` per group.  The Python function
renders this as a pie chart and returns `None`; the modelled value is the
grouped rows it computes. -/
def get_count_per_renewal_cost (db : DB) : List (Int × Nat) × DB :=
  let rows := db.quota_results.filter (fun r => decide (r.renewal_cost ≠ none))
  (sqlGroupBy (fun r => r.renewal_cost.getD 0) (fun g => g.length) rows, db)

/-- Observable outcome of one call to `remaining_balance_by_line`: the
grouped sums the function computes and writes to the log, and the value it
returns to its caller. -/
structure RemainingBalanceCall where
  logged : List (Int × Int)
  retval : Option (List (Int × Int))
deriving DecidableEq

/-- `remaining_balance_by_line(session)` from `src/db/crud.py`: computes
`SELECT line_id, SUM(balance) GROUP BY line_id` over `quota_results`, logs
each row, and falls off the end of the function body — it returns `None`,
never the computed rows. -/
def remaining_balance_by_line (db : DB) : RemainingBalanceCall × DB :=
  let results := sqlGroupBy (fun r => r.line_id) (fun g => (g.map (fun r => r.balance)).sum)
    db.quota_results
  ({ logged := results, retval := none }, db)

/-- The `/remaining-balance-by-line` endpoint handler
(`get_remaining_balance_by_line` in `src/app.py`): it returns the value of
`remaining_balance_by_line(db)` unchanged as the response body. -/
def get_remaining_balance_by_line (db : DB) : Option (List (Int × Int)) :=
  (remaining_balance_by_line db).1.retval

/-- The time-window filter of `average_speeds_per_line` and
`average_ping_per_line`: `end_date = datetime.now().date()`,
`start_date = end_date - timedelta(days=days)`, and
`date_time.between(start_date, end_date)` (inclusive on both ends). -/
def speedInWindow (now days : Int) (r : SpeedTestResult) : Bool :=
  let end_date := dateOf now
  let start_date := end_date - days * secondsPerDay
  decide (start_date ≤ r.date_time ∧ r.date_time ≤ end_date)

/-- `average_speeds_per_line(session, days)` from `src/db/crud.py`:
speed-test rows with `date_time` between `today - days` and `today`,
grouped by `line_id`, with `AVG(upload_speed)` and `AVG(download_speed)`
per group.  `now` is the value of `datetime.now()`. -/
def average_speeds_per_line (db : DB) (now days : Int) :
    List AverageSpeedsPerLine × DB :=
  let rows := db.speed_test_results.filter (speedInWindow now days)
  let grouped := sqlGroupBy (fun r => r.line_id)
    (fun g => (listAvg (g.map (fun r => r.upload_speed)),
               listAvg (g.map (fun r => r.download_speed)))) rows
  (grouped.map (fun p =>
    { line_id := p.1, avg_upload_speed := p.2.1, avg_download_speed := p.2.2 }), db)

/-- `average_ping_per_line(session, days)` from `src/db/crud.py`: the same
time window and grouping as `average_speeds_per_line`, with `AVG(ping)`
per group. -/
def average_ping_per_line (db : DB) (now days : Int) :
    List AveragePingPerLine × DB :=
  let rows := db.speed_test_results.filter (speedInWindow now days)
  let grouped := sqlGroupBy (fun r => r.line_id)
    (fun g => listAvg (g.map (fun r => r.ping))) rows
  (grouped.map (fun p => { line_id := p.1, avg_ping := p.2 }), db)

/-! Helper lemmas about the embedding. -/

theorem sqlGroupBy_map_fst {α κ β : Type} [DecidableEq κ] (key : α → κ)
    (agg : List α → β) (rows : List α) :
    (sqlGroupBy key agg rows).map Prod.fst = (rows.map key).dedup := by
  simp only [sqlGroupBy, List.map_map]
  have hcomp :
      (Prod.fst ∘ fun k => (k, agg (rows.filter (fun r => decide (key r = k))))) = id := rfl
  rw [hcomp, List.map_id]

theorem sqlGroupBy_keys_nodup {α κ β : Type} [DecidableEq κ] (key : α → κ)
    (agg : List α → β) (rows : List α) :
    ((sqlGroupBy key agg rows).map Prod.fst).Nodup := by
  rw [sqlGroupBy_map_fst]
  exact List.nodup_dedup _

theorem sqlGroupBy_mem_fst {α κ β : Type} [DecidableEq κ] (key : α → κ)
    (agg : List α → β) (rows : List α) (k : κ) :
    k ∈ (sqlGroupBy key agg rows).map Prod.fst ↔ ∃ r ∈ rows, key r = k := by
  rw [sqlGroupBy_map_fst]
  simp [List.mem_dedup]

theorem sqlGroupBy_snd {α κ β : Type} [DecidableEq κ] (key : α → κ)
    (agg : List α → β) (rows : List α) (p : κ × β)
    (hp : p ∈ sqlGroupBy key agg rows) :
    p.2 = agg (rows.filter (fun r => decide (key r = p.1))) := by
  simp only [sqlGroupBy, List.mem_map] at hp
  obtain ⟨k, _, hk⟩ := hp
  rw [← hk]

theorem listAvg_singleton (x : Int) : listAvg [x] = (x : ℚ) := by
  simp [listAvg]

/-- C8: every data-access function of the module leaves the database state
unchanged — the three tables after any call equal the tables before it. -/
theorem data_access_preserves_db (db : DB) (i f g : Option Int)
    (nowS dS nowP dP : Int) :
    (read_lines db i).2 = db ∧
    (read_quota_results db f).2 = db ∧
    (read_speed_test_results db g).2 = db ∧
    (get_total_dataused_per_line db).2 = db ∧
    (get_count_per_renewal_cost db).2 = db ∧
    (remaining_balance_by_line db).2 = db ∧
    (average_speeds_per_line db nowS dS).2 = db ∧
    (average_ping_per_line db nowP dP).2 = db :=
  ⟨rfl, rfl, rfl, rfl, rfl, rfl, rfl, rfl⟩

/-- C2: passing `0` for the optional id filter of `read_lines`,
`read_quota_results` or `read_speed_test_results` behaves exactly like
passing no filter at all — `0` is falsy, so the `where` clause is skipped. -/
theorem zero_filter_is_no_filter (db : DB) :
    read_lines db (some 0) = read_lines db none ∧
    read_quota_results db (some 0) = read_quota_results db none ∧
    read_speed_test_results db (some 0) = read_speed_test_results db none := by
  refine ⟨?_, ?_, ?_⟩ <;>
    simp [read_lines, read_quota_results, read_speed_test_results, intTruthy]

theorem average_speeds_map_line_id (db : DB) (now days : Int) :
    ((average_speeds_per_line db now days).1).map (fun r => r.line_id)
      = ((db.speed_test_results.filter (speedInWindow now days)).map
          (fun r => r.line_id)).dedup := by
  simp only [average_speeds_per_line, List.map_map]
  exact sqlGroupBy_map_fst _ _ _

theorem average_ping_map_line_id (db : DB) (now days : Int) :
    ((average_ping_per_line db now days).1).map (fun r => r.line_id)
      = ((db.speed_test_results.filter (speedInWindow now days)).map
          (fun r => r.line_id)).dedup := by
  simp only [average_ping_per_line, List.map_map]
  exact sqlGroupBy_map_fst _ _ _

/-- C10: the group-by keys of each aggregation result are pairwise
distinct — each line id appears at most once in the lists returned by
`average_speeds_per_line` and `average_ping_per_line`, and each renewal
cost appears at most once in the aggregation of
`get_count_per_renewal_cost`. -/
theorem aggregation_keys_distinct (db : DB) (now days : Int) :
    (((average_speeds_per_line db now days).1).map (fun r => r.line_id)).Nodup ∧
    (((average_ping_per_line db now days).1).map (fun r => r.line_id)).Nodup ∧
    (((get_count_per_renewal_cost db).1).map Prod.fst).Nodup := by
  refine ⟨?_, ?_, ?_⟩
  · rw [average_speeds_map_line_id]
    exact List.nodup_dedup _
  · rw [average_ping_map_line_id]
    exact List.nodup_dedup _
  · exact sqlGroupBy_keys_nodup _ _ _

/-- C7: the aggregation of `get_total_dataused_per_line` has exactly the
line ids occurring in `quota_results` as keys, each exactly once, and pairs
each with the arithmetic sum of `data_used` over that line's quota rows. -/
theorem total_dataused_per_line_correct (db : DB) :
    (∀ L : Int, L ∈ ((get_total_dataused_per_line db).1).map Prod.fst ↔
        ∃ r ∈ db.quota_results, r.line_id = L) ∧
    (((get_total_dataused_per_line db).1).map Prod.fst).Nodup ∧
    (∀ p ∈ (get_total_dataused_per_line db).1,
        p.2 = ((db.quota_results.filter (fun r => decide (r.line_id = p.1))).map
          (fun r => r.data_used)).sum) := by
  simp only [get_total_dataused_per_line]
  refine ⟨?_, ?_, ?_⟩
  · intro L
    exact sqlGroupBy_mem_fst _ _ _ L
  · exact sqlGroupBy_keys_nodup _ _ _
  · intro p hp
    exact sqlGroupBy_snd _ _ _ p hp

/-- C5: the aggregation of `get_count_per_renewal_cost` has exactly the
non-null renewal costs of `quota_results` as keys (null renewal costs are
excluded), each exactly once, and pairs each cost with the arithmetic count
of quota rows carrying that cost. -/
theorem count_per_renewal_cost_correct (db : DB) :
    (∀ c : Int, c ∈ ((get_count_per_renewal_cost db).1).map Prod.fst ↔
        ∃ r ∈ db.quota_results, r.renewal_cost = some c) ∧
    (((get_count_per_renewal_cost db).1).map Prod.fst).Nodup ∧
    (∀ p ∈ (get_count_per_renewal_cost db).1,
        p.2 = (db.quota_results.filter
          (fun r => decide (r.renewal_cost = some p.1))).length) := by
  simp only [get_count_per_renewal_cost]
  refine ⟨?_, ?_, ?_⟩
  · intro c
    rw [sqlGroupBy_mem_fst]
    constructor
    · rintro ⟨r, hr, hc⟩
      rw [List.mem_filter] at hr
      refine ⟨r, hr.1, ?_⟩
      rcases hcost : r.renewal_cost with _ | v
      · rw [hcost] at hr
        simp at hr
      · rw [hcost] at hc
        simp only [Option.getD_some] at hc
        rw [hc]
    · rintro ⟨r, hr, hc⟩
      refine ⟨r, ?_, ?_⟩
      · rw [List.mem_filter]
        exact ⟨hr, by simp [hc]⟩
      · simp [hc]
  · exact sqlGroupBy_keys_nodup _ _ _
  · intro p hp
    have h := sqlGroupBy_snd _ _ _ p hp
    rw [List.filter_filter] at h
    rw [h]
    congr 1
    apply List.filter_congr
    intro r _
    rcases hcost : r.renewal_cost with _ | v <;> simp [hcost]

/-- C3: for every database state and filter value, `read_quota_results`
returns exactly the quota rows matching the filter (a truthy `line_id`
keeps only that line's rows; an absent or falsy filter keeps all rows),
ordered by `date_time` descending. -/
theorem read_quota_results_exact_and_ordered (db : DB) (f : Option Int) :
    List.Perm ((read_quota_results db f).1)
      (db.quota_results.filter
        (fun r => !intTruthy f || decide (r.line_id = f.getD 0))) ∧
    List.Sorted quotaDateGE ((read_quota_results db f).1) := by
  constructor
  · simp only [read_quota_results]
    rcases htr : intTruthy f with _ | _
    · simp only [htr, if_neg Bool.false_ne_true, Bool.not_false, Bool.true_or,
        List.filter_true]
      exact List.perm_insertionSort quotaDateGE _
    · simp only [htr, if_pos rfl, Bool.not_true, Bool.false_or]
      exact List.perm_insertionSort quotaDateGE _
  · exact List.sorted_insertionSort quotaDateGE _

theorem filter_id_eq_singleton {l : List Line} (h : (l.map Line.id).Nodup)
    {L : Line} (hL : L ∈ l) :
    l.filter (fun x => decide (x.id = L.id)) = [L] := by
  induction l with
  | nil => cases hL
  | cons a t ih =>
    rw [List.map_cons, List.nodup_cons] at h
    rcases List.mem_cons.mp hL with hLa | hLt
    · subst hLa
      have ht : t.filter (fun x => decide (x.id = L.id)) = [] := by
        rw [List.filter_eq_nil_iff]
        intro x hx hxid
        exact h.1 (by
          rw [List.mem_map]
          exact ⟨x, hx, by simpa using hxid⟩)
      simp [List.filter_cons, ht]
    · have hne : a.id ≠ L.id := by
        intro he
        exact h.1 (by
          rw [List.mem_map]
          exact ⟨L, hLt, he.symm⟩)
      rw [List.filter_cons]
      simp only [decide_eq_true_eq, if_neg hne]
      exact ih h.2 hLt

/-- C6: `read_lines` with no filter returns every stored line (whatever
its id), and when additionally the line's id is nonzero (truthy) and ids
are pairwise distinct (`id` is the primary key), `read_lines` filtered to
that id returns exactly that line. -/
theorem read_lines_complete_and_exact (db : DB) (L : Line)
    (hL : L ∈ db.lines) :
    L ∈ (read_lines db none).1 ∧
    ((db.lines.map Line.id).Nodup → L.id ≠ 0 →
      (read_lines db (some L.id)).1 = [L]) := by
  constructor
  · simpa [read_lines, intTruthy] using hL
  · intro hpk hid
    simp only [read_lines, Option.getD_some]
    rw [if_pos (show intTruthy (some L.id) = true by simp [intTruthy, hid])]
    exact filter_id_eq_singleton hpk hL

def lineOne : Line := { id := 1, line_number := "123", name := "Test Line" }

def lineTwo : Line := { id := 2, line_number := "456", name := "Other Line" }

def dbTwoLines : DB :=
  { lines := [lineOne, lineTwo], quota_results := [], speed_test_results := [] }

/-- C6 witness: the database of two lines with ids 1 and 2 satisfies the
hypotheses of `read_lines_complete_and_exact` for the first line, and both
conclusions hold there. -/
theorem read_lines_complete_and_exact_witness :
    (lineOne ∈ dbTwoLines.lines) ∧
    (lineOne ∈ (read_lines dbTwoLines none).1 ∧
      (read_lines dbTwoLines (some lineOne.id)).1 = [lineOne]) :=
  ⟨by decide,
    (read_lines_complete_and_exact dbTwoLines lineOne (by decide)).1,
    (read_lines_complete_and_exact dbTwoLines lineOne (by decide)).2
      (by decide) (by decide)⟩

/-- C9: for a negative `days` the window's start date lies strictly after
its end date, no speed-test row passes the `between` filter, and both
average endpoints return the empty list on every database state. -/
theorem negative_days_empty_results (db : DB) (now days : Int) (h : days < 0) :
    dateOf now < dateOf now - days * secondsPerDay ∧
    (average_speeds_per_line db now days).1 = [] ∧
    (average_ping_per_line db now days).1 = [] := by
  have hw : db.speed_test_results.filter (speedInWindow now days) = [] := by
    rw [List.filter_eq_nil_iff]
    intro r _
    simp only [speedInWindow, dateOf, secondsPerDay, decide_eq_true_eq]
    omega
  refine ⟨?_, ?_, ?_⟩
  · simp only [dateOf, secondsPerDay]
    omega
  · simp [average_speeds_per_line, hw, sqlGroupBy]
  · simp [average_ping_per_line, hw, sqlGroupBy]

def dbEmpty : DB := { lines := [], quota_results := [], speed_test_results := [] }

/-- C9 witness: at `days = -1` the hypothesis holds and both averages are
empty on the empty database. -/
theorem negative_days_empty_results_witness :
    ((-1 : Int) < 0) ∧
    (dateOf 0 < dateOf 0 - (-1) * secondsPerDay ∧
      (average_speeds_per_line dbEmpty 0 (-1)).1 = [] ∧
      (average_ping_per_line dbEmpty 0 (-1)).1 = []) :=
  ⟨by decide, negative_days_empty_results dbEmpty 0 (-1) (by decide)⟩

def quotaRowOne : QuotaResults :=
  { id := 1, process_id := "proc-123", line_id := 1, data_used := 100,
    usage_percentage := 50, data_remaining := 100, balance := 50,
    renewal_date := "2023-09-01", remaining_days := 10,
    renewal_cost := some 20, date_time := 0 }

def dbQuotaOne : DB :=
  { lines := [lineOne], quota_results := [quotaRowOne], speed_test_results := [] }

/-- C4: on the database holding one quota row for line 1 with balance 50,
the `/remaining-balance-by-line` handler returns `None` — not the list of
per-line balance sums — even though `remaining_balance_by_line` computes
and logs exactly that list. -/
theorem remaining_balance_endpoint_returns_no_data :
    get_remaining_balance_by_line dbQuotaOne = none ∧
    (remaining_balance_by_line dbQuotaOne).1.logged = [(1, 50)] :=
  ⟨rfl, rfl⟩

/-- C7 witness: on the database with one quota row for line 1, line 1 is a
key of the aggregation of `get_total_dataused_per_line` and the keys are
distinct. -/
theorem total_dataused_per_line_correct_witness :
    ((1 : Int) ∈ ((get_total_dataused_per_line dbQuotaOne).1).map Prod.fst) ∧
    (((get_total_dataused_per_line dbQuotaOne).1).map Prod.fst).Nodup :=
  ⟨((total_dataused_per_line_correct dbQuotaOne).1 1).mpr
      ⟨quotaRowOne, by decide, by decide⟩,
    (total_dataused_per_line_correct dbQuotaOne).2.1⟩

/-- C5 witness: on the database with one quota row of renewal cost 20,
cost 20 is a key of the aggregation of `get_count_per_renewal_cost` and the
keys are distinct. -/
theorem count_per_renewal_cost_correct_witness :
    ((20 : Int) ∈ ((get_count_per_renewal_cost dbQuotaOne).1).map Prod.fst) ∧
    (((get_count_per_renewal_cost dbQuotaOne).1).map Prod.fst).Nodup :=
  ⟨((count_per_renewal_cost_correct dbQuotaOne).1 20).mpr
      ⟨quotaRowOne, by decide, by decide⟩,
    (count_per_renewal_cost_correct dbQuotaOne).2.1⟩

theorem one_sample_window_filter (db : DB) (now D : Int) (L : Int)
    (s : SpeedTestResult)
    (hone : db.speed_test_results.filter (fun r => decide (r.line_id = L)) = [s]) :
    (db.speed_test_results.filter (speedInWindow now D)).filter
        (fun r => decide (r.line_id = L))
      = List.filter (speedInWindow now D) [s] := by
  rw [List.filter_filter]
  have hcomm : ∀ x ∈ db.speed_test_results,
      (decide (x.line_id = L) && speedInWindow now D x)
        = (speedInWindow now D x && decide (x.line_id = L)) := by
    intro x _
    exact Bool.and_comm _ _
  rw [List.filter_congr hcomm, ← List.filter_filter, hone]

theorem average_speeds_mem_iff (db : DB) (now D : Int) (L : Int) :
    (∃ row ∈ (average_speeds_per_line db now D).1, row.line_id = L) ↔
      ∃ r ∈ db.speed_test_results.filter (speedInWindow now D), r.line_id = L := by
  constructor
  · rintro ⟨row, hrow, hrl⟩
    have hmem : row.line_id ∈
        ((average_speeds_per_line db now D).1).map (fun r => r.line_id) :=
      List.mem_map.mpr ⟨row, hrow, rfl⟩
    rw [average_speeds_map_line_id, List.mem_dedup, List.mem_map] at hmem
    obtain ⟨r, hr, hrid⟩ := hmem
    exact ⟨r, hr, by rw [hrid, hrl]⟩
  · rintro ⟨r, hr, hrid⟩
    have hkey : L ∈
        ((average_speeds_per_line db now D).1).map (fun r => r.line_id) := by
      rw [average_speeds_map_line_id, List.mem_dedup, List.mem_map]
      exact ⟨r, hr, hrid⟩
    obtain ⟨row, hrow, hrl⟩ := List.mem_map.mp hkey
    exact ⟨row, hrow, hrl⟩

theorem average_ping_mem_iff (db : DB) (now D : Int) (L : Int) :
    (∃ row ∈ (average_ping_per_line db now D).1, row.line_id = L) ↔
      ∃ r ∈ db.speed_test_results.filter (speedInWindow now D), r.line_id = L := by
  constructor
  · rintro ⟨row, hrow, hrl⟩
    have hmem : row.line_id ∈
        ((average_ping_per_line db now D).1).map (fun r => r.line_id) :=
      List.mem_map.mpr ⟨row, hrow, rfl⟩
    rw [average_ping_map_line_id, List.mem_dedup, List.mem_map] at hmem
    obtain ⟨r, hr, hrid⟩ := hmem
    exact ⟨r, hr, by rw [hrid, hrl]⟩
  · rintro ⟨r, hr, hrid⟩
    have hkey : L ∈
        ((average_ping_per_line db now D).1).map (fun r => r.line_id) := by
      rw [average_ping_map_line_id, List.mem_dedup, List.mem_map]
      exact ⟨r, hr, hrid⟩
    obtain ⟨row, hrow, hrl⟩ := List.mem_map.mp hkey
    exact ⟨row, hrow, hrl⟩

theorem average_speeds_row_value (db : DB) (now D : Int)
    (row : AverageSpeedsPerLine)
    (hrow : row ∈ (average_speeds_per_line db now D).1) :
    row.avg_upload_speed = listAvg
      (((db.speed_test_results.filter (speedInWindow now D)).filter
        (fun r => decide (r.line_id = row.line_id))).map (fun r => r.upload_speed)) ∧
    row.avg_download_speed = listAvg
      (((db.speed_test_results.filter (speedInWindow now D)).filter
        (fun r => decide (r.line_id = row.line_id))).map
          (fun r => r.download_speed)) := by
  simp only [average_speeds_per_line] at hrow
  obtain ⟨p, hp, hmk⟩ := List.mem_map.mp hrow
  have hsnd := sqlGroupBy_snd _ _ _ p hp
  subst hmk
  constructor
  · show p.2.1 = _
    rw [hsnd]
  · show p.2.2 = _
    rw [hsnd]

theorem average_ping_row_value (db : DB) (now D : Int)
    (row : AveragePingPerLine)
    (hrow : row ∈ (average_ping_per_line db now D).1) :
    row.avg_ping = listAvg
      (((db.speed_test_results.filter (speedInWindow now D)).filter
        (fun r => decide (r.line_id = row.line_id))).map (fun r => r.ping)) := by
  simp only [average_ping_per_line] at hrow
  obtain ⟨p, hp, hmk⟩ := List.mem_map.mp hrow
  have hsnd := sqlGroupBy_snd _ _ _ p hp
  subst hmk
  show p.2 = _
  rw [hsnd]

/-- C1 (amended): for a line whose only speed-test sample is timestamped
`d` whole days before `now`, `average_speeds_per_line(days=D)` and
`average_ping_per_line(days=D)` include a row for that line iff `d ≤ D`
and, in addition, either `d ≥ 1` or `now` lies exactly on a day boundary:
`end_date` is `now` truncated to its date, so the day-zero sample sits
after the window's upper bound whenever `now` has a nonzero time of day.
When the row is present its averages equal the sample's values. -/
theorem one_sample_average_window (db : DB) (now : Int) (L : Int)
    (s : SpeedTestResult) (d : Nat) (D : Int)
    (hone : db.speed_test_results.filter (fun r => decide (r.line_id = L)) = [s])
    (ht : s.date_time = now - (d : Int) * secondsPerDay) :
    ((∃ row ∈ (average_speeds_per_line db now D).1, row.line_id = L) ↔
      ((d : Int) ≤ D ∧ (1 ≤ d ∨ now % secondsPerDay = 0))) ∧
    (∀ row ∈ (average_speeds_per_line db now D).1, row.line_id = L →
      row.avg_upload_speed = (s.upload_speed : ℚ) ∧
      row.avg_download_speed = (s.download_speed : ℚ)) ∧
    ((∃ row ∈ (average_ping_per_line db now D).1, row.line_id = L) ↔
      ((d : Int) ≤ D ∧ (1 ≤ d ∨ now % secondsPerDay = 0))) ∧
    (∀ row ∈ (average_ping_per_line db now D).1, row.line_id = L →
      row.avg_ping = (s.ping : ℚ)) := by
  have hwin_iff : speedInWindow now D s = true ↔
      ((d : Int) ≤ D ∧ (1 ≤ d ∨ now % secondsPerDay = 0)) := by
    simp only [speedInWindow, ht, secondsPerDay, dateOf, decide_eq_true_eq]
    omega
  have hfil := one_sample_window_filter db now D L s hone
  have hmem_rows :
      (∃ r ∈ db.speed_test_results.filter (speedInWindow now D), r.line_id = L) ↔
        speedInWindow now D s = true := by
    constructor
    · rintro ⟨r, hr, hrid⟩
      have hrfil : r ∈ (db.speed_test_results.filter (speedInWindow now D)).filter
          (fun x => decide (x.line_id = L)) :=
        List.mem_filter.mpr ⟨hr, by simpa using hrid⟩
      rw [hfil] at hrfil
      rcases hwin : speedInWindow now D s with _ | _
      · simp [List.filter_cons, hwin] at hrfil
      · rfl
    · intro hwin
      have hsmem : s ∈ db.speed_test_results.filter (fun r => decide (r.line_id = L)) := by
        rw [hone]
        exact List.mem_singleton_self s
      have h2 := List.mem_filter.mp hsmem
      refine ⟨s, List.mem_filter.mpr ⟨h2.1, hwin⟩, by simpa using h2.2⟩
  have hfilL : speedInWindow now D s = true →
      (db.speed_test_results.filter (speedInWindow now D)).filter
        (fun r => decide (r.line_id = L)) = [s] := by
    intro hwin
    rw [hfil]
    simp [List.filter_cons, hwin]
  refine ⟨?_, ?_, ?_, ?_⟩
  · rw [average_speeds_mem_iff db now D L, hmem_rows, hwin_iff]
  · intro row hrow hrl
    have hwins : speedInWindow now D s = true :=
      hmem_rows.mp ((average_speeds_mem_iff db now D L).mp ⟨row, hrow, hrl⟩)
    have hv := average_speeds_row_value db now D row hrow
    rw [hrl, hfilL hwins] at hv
    constructor
    · rw [hv.1]
      simp [listAvg_singleton]
    · rw [hv.2]
      simp [listAvg_singleton]
  · rw [average_ping_mem_iff db now D L, hmem_rows, hwin_iff]
  · intro row hrow hrl
    have hwins : speedInWindow now D s = true :=
      hmem_rows.mp ((average_ping_mem_iff db now D L).mp ⟨row, hrow, hrl⟩)
    have hv := average_ping_row_value db now D row hrow
    rw [hrl, hfilL hwins] at hv
    rw [hv]
    simp [listAvg_singleton]

def sampleNoonToday : SpeedTestResult :=
  { id := 1, process_id := "speed-123", line_id := 1, ping := 20,
    upload_speed := 50, download_speed := 100, public_ip := "192.168.1.1",
    date_time := 43200 }

def dbNoonToday : DB :=
  { lines := [lineOne], quota_results := [], speed_test_results := [sampleNoonToday] }

/-- C1 counterexample: line 1's only speed-test sample is timestamped `now`
itself (`d = 0` days before `now`, with `now` at noon of day 0), and
`days = D = 0`, so `d ≤ D`; yet both averages are empty — the sample lies
after `end_date`, which the code truncates to the start of the current day. -/
theorem day_zero_sample_excluded :
    dbNoonToday.speed_test_results.filter (fun r => decide (r.line_id = 1))
        = [sampleNoonToday] ∧
    sampleNoonToday.date_time = 43200 - ((0 : Nat) : Int) * secondsPerDay ∧
    ((0 : Nat) : Int) ≤ (0 : Int) ∧
    (average_speeds_per_line dbNoonToday 43200 0).1 = [] ∧
    (average_ping_per_line dbNoonToday 43200 0).1 = [] := by
  refine ⟨rfl, by norm_num [sampleNoonToday], by norm_num, rfl, rfl⟩

def sampleThreeDaysAgo : SpeedTestResult :=
  { id := 1, process_id := "speed-123", line_id := 1, ping := 20,
    upload_speed := 50, download_speed := 100, public_ip := "192.168.1.1",
    date_time := 604900 }

def dbThreeDaysAgo : DB :=
  { lines := [lineOne], quota_results := [],
    speed_test_results := [sampleThreeDaysAgo] }

/-- C1 witness: with `now` 100 seconds past the start of day 10, line 1's
only sample three days old and `days = 30`, the hypotheses of
`one_sample_average_window` hold and both endpoints include line 1. -/
theorem one_sample_average_window_witness :
    (dbThreeDaysAgo.speed_test_results.filter (fun r => decide (r.line_id = 1))
        = [sampleThreeDaysAgo] ∧
      sampleThreeDaysAgo.date_time = 864100 - ((3 : Nat) : Int) * secondsPerDay) ∧
    (∃ row ∈ (average_speeds_per_line dbThreeDaysAgo 864100 30).1,
      row.line_id = 1) ∧
    (∃ row ∈ (average_ping_per_line dbThreeDaysAgo 864100 30).1,
      row.line_id = 1) := by
  have h := one_sample_average_window dbThreeDaysAgo 864100 1 sampleThreeDaysAgo 3 30
    rfl (by norm_num [secondsPerDay, sampleThreeDaysAgo])
  exact ⟨⟨rfl, by norm_num [secondsPerDay, sampleThreeDaysAgo]⟩,
    h.1.mpr ⟨by norm_num, Or.inl (by norm_num)⟩,
    h.2.2.1.mpr ⟨by norm_num, Or.inl (by norm_num)⟩⟩

end NetworkUsage
